import Mathlib

/-!
Shallow embedding of the rs_media_splitter_worker core:
- `Duration` / `DurationUnit` / `DurationPosition` and `Duration.to_millis`
  from src/duration.rs;
- `SplitPolicy`, `SplitPolicy.get_parameters` and `SplitPolicy.split`
  from src/split_policy.rs;
- the window / start-offset computation of `generate_segments`
  from src/message.rs.

Machine integers (`u64`) are embedded as `Nat`; the `i64 → u64` cast of the
overlap parameter, the multiplications of `Duration::to_millis` and the
`segment_duration * 1000` multiply of `get_parameters` (which can exceed
`u64`) are reduced modulo 2^64, matching Rust's wrapping semantics. The
`u64 → f64` conversion inside `get_parameters` is modelled exactly
(`f64round`, round to 53 significant bits, ties to even); the f64 division
and ceiling are modelled as exact ceiling division of the rounded operands,
with `x / 0.0` saturating to `u64::MAX` resp. `NaN` casting to 0 — see
`ceilDivF` for the regime where this is exact.
-/

namespace MediaSplitter

/-- 2^64, the modulus of Rust's `u64` arithmetic. -/
def U64MOD : Nat := 2 ^ 64

/-- Rust's `as u64` cast applied to an `i64` value: the value modulo 2^64
(a negative `v` becomes `2^64 + v`). From `segment_overlap.unwrap_or(0) as u64`
in src/split_policy.rs line 18. -/
def i64ToU64 (v : Int) : Nat :=
  (v % (U64MOD : Int)).toNat

/-- `DurationUnit` from src/duration.rs: `Millisecond | Second | Percent`. -/
inductive DurationUnit where
  | Millisecond : DurationUnit
  | Second : DurationUnit
  | Percent : DurationUnit
deriving DecidableEq, Repr

/-- `Duration` from src/duration.rs: a numeric value together with a unit. -/
structure Duration where
  value : Nat
  unit : DurationUnit
deriving DecidableEq, Repr

/-- `Duration::to_millis` from src/duration.rs lines 21-27:
`Millisecond → value`, `Second → value * 1000`,
`Percent → media_duration * value / 100`. The two multiplications are `u64`
multiplications, hence reduced modulo 2^64. -/
def Duration.to_millis (d : Duration) (media_duration : Nat) : Nat :=
  match d.unit with
  | DurationUnit.Millisecond => d.value
  | DurationUnit.Second => d.value * 1000 % U64MOD
  | DurationUnit.Percent => media_duration * d.value % U64MOD / 100

/-- `DurationPosition` from src/duration.rs: the anchor of the selection
window, `Start` or `End` (default `Start`). -/
inductive DurationPosition where
  | Start : DurationPosition
  | End : DurationPosition
deriving DecidableEq, Repr

/-- `MediaSegment` from the worker SDK: a start and an end offset in
milliseconds, both `u64`. The `end` field keeps its source name via
French quotes since `end` is a Lean keyword. -/
structure MediaSegment where
  start : Nat
  «end» : Nat
deriving DecidableEq, Repr

/-- `SplitPolicy` from src/split_policy.rs lines 3-8. -/
inductive SplitPolicy where
  | SegmentDurationSeconds : Nat → SplitPolicy
  | SegmentDurationMilliSeconds : Nat → SplitPolicy
  | NumberOfSegments : Nat → SplitPolicy
deriving DecidableEq, Repr

/-- The `u64 → f64` conversion: round `n` to 53 significant bits,
ties to even, returned as the exact integer value of the resulting double
(integers up to 2^64 are far inside f64's exponent range, so the rounded
value is again an integer). Identity below 2^53; at `n = 2^53 + 1` it
rounds down to `2^53`. -/
def f64round (n : Nat) : Nat :=
  if n < 2 ^ 53 then n
  else if 2 * (n % 2 ^ (Nat.log2 n - 52)) > 2 ^ (Nat.log2 n - 52) ∨
      (2 * (n % 2 ^ (Nat.log2 n - 52)) = 2 ^ (Nat.log2 n - 52) ∧
        n / 2 ^ (Nat.log2 n - 52) % 2 = 1) then
    (n / 2 ^ (Nat.log2 n - 52) + 1) * 2 ^ (Nat.log2 n - 52)
  else n / 2 ^ (Nat.log2 n - 52) * 2 ^ (Nat.log2 n - 52)

/-- The expression `(a as f64 / b as f64).ceil() as u64` used by
`SplitPolicy::get_parameters` (src/split_policy.rs lines 52, 59, 69).
The two `u64 → f64` conversions are modelled exactly by `f64round`.
For `b = 0`: `a / 0.0` is `+inf` for `a > 0` and the saturating
`f64 → u64` cast yields `u64::MAX = 2^64 - 1`; `0.0 / 0.0` is `NaN`
and `NaN as u64 = 0`.
For `b ≠ 0` the division itself and the ceiling are modelled as exact
ceiling division of the rounded operands. This is exact for all
`a ≤ 2^53`: both conversions are then the identity, an integer exact
quotient is reproduced exactly (it is representable), and for a non-integer
exact quotient `q = a / b` — which lies at distance at least `1/b` from the
nearest integers — a correctly rounded `q'` differs from `q` by at most
`ulp(q)/2 = 2^(floor(log2 q) - 53)`, so `ceil q' ≠ ceil q` would force
`2^(floor(log2 q) - 53) ≥ 1/b`, i.e. `b ≥ 2^(53 - floor(log2 q))`, hence
`a = q * b ≥ 2^(floor(log2 q)) * 2^(53 - floor(log2 q)) = 2^53`.
Above 2^53 (about 285,000 years of media) the model keeps the rounded
operands but idealizes the division rounding. -/
def ceilDivF (a b : Nat) : Nat :=
  if b = 0 then (if a = 0 then 0 else U64MOD - 1)
  else (f64round a + f64round b - 1) / f64round b

/-- `SplitPolicy::get_parameters` from src/split_policy.rs lines 43-73:
returns `(segment_duration, number_of_segments)`. The
`segment_duration *= 1000` of the Seconds branch is a `u64` multiply and is
reduced modulo 2^64 (at `segment_duration = 2^61` it wraps to 0, making the
divisor of the following f64 division zero). -/
def SplitPolicy.get_parameters (policy : SplitPolicy) (media_duration : Nat) :
    Nat × Nat :=
  match policy with
  | SplitPolicy.SegmentDurationSeconds segment_duration =>
    let segment_duration :=
      if segment_duration = 0 then media_duration
      else segment_duration * 1000 % U64MOD
    (segment_duration, ceilDivF media_duration segment_duration)
  | SplitPolicy.SegmentDurationMilliSeconds segment_duration =>
    let segment_duration :=
      if segment_duration = 0 then media_duration else segment_duration
    (segment_duration, ceilDivF media_duration segment_duration)
  | SplitPolicy.NumberOfSegments number_of_segments =>
    let number_of_segments :=
      if number_of_segments = 0 then 1 else number_of_segments
    let number_of_segments :=
      if number_of_segments ≥ media_duration then media_duration
      else number_of_segments
    (ceilDivF media_duration number_of_segments, number_of_segments)

/-- The end-cursor update of one loop iteration of `SplitPolicy::split`
(src/split_policy.rs lines 25-28): `next_end += segment_duration - 1`, then
clamp — `if next_end >= media_duration { next_end = media_duration - 1 }`.
`segment_duration ≥ 1` whenever the loop runs at least once, so the
`u64` subtraction `segment_duration - 1` never underflows; likewise
`media_duration ≥ 1` whenever the clamp branch is reached. -/
def stepEnd (media_duration segment_duration next_end : Nat) : Nat :=
  if next_end + (segment_duration - 1) ≥ media_duration then media_duration - 1
  else next_end + (segment_duration - 1)

/-- The start-cursor update at the end of a loop iteration
(src/split_policy.rs lines 33-37), from the already incremented end cursor:
`if next_end < overlap { next_start = 0 } else { next_start = next_end - overlap }`. -/
def stepStart (overlap next_end : Nat) : Nat :=
  if next_end < overlap then 0 else next_end - overlap

/-- The `for _ in 0..number_of_segments` loop of `SplitPolicy::split`
(src/split_policy.rs lines 24-38), with the remaining iteration count as the
recursion argument and the two cursors `next_start`, `next_end` passed
explicitly. Each iteration advances and clamps the end cursor (`stepEnd`),
pushes `(next_start, next_end)`, increments the end cursor, and derives the
next start cursor (`stepStart`).
A zero `segment_duration` together with a positive iteration count is
produced only by the wrapped Seconds multiply, where the program panics at
the `Vec::with_capacity` pre-allocation (capacity `u64::MAX`,
see `splitCapacityOverflow`) before ever entering the loop; the loop value
the model computes there is never a program result. -/
def splitLoop (media_duration segment_duration overlap : Nat) :
    Nat → Nat → Nat → List MediaSegment
  | 0, _, _ => []
  | Nat.succ k, next_start, next_end =>
    let ne := stepEnd media_duration segment_duration next_end
    (⟨next_start, ne⟩ : MediaSegment) ::
      splitLoop media_duration segment_duration overlap k
        (stepStart overlap (ne + 1)) (ne + 1)

/-- `SplitPolicy::split` from src/split_policy.rs lines 11-41. The `Result`
return type is embedded as `Except String`; the body only ever ends in
`Ok(segments)`. The model is a total function and cannot represent a Rust
panic: inputs on which the program panics (see `splitCapacityOverflow`) are
mapped to the value the loop would compute. -/
def SplitPolicy.split (policy : SplitPolicy) (media_duration : Nat)
    (segment_overlap : Option Int) : Except String (List MediaSegment) :=
  let p := policy.get_parameters media_duration
  let overlap := i64ToU64 (segment_overlap.getD 0)
  Except.ok (splitLoop media_duration p.1 overlap p.2 0 0)

/-- The panic condition of the pre-allocation
`Vec::with_capacity(number_of_segments as usize)` at src/split_policy.rs
line 20: `Vec::with_capacity` panics with "capacity overflow" when the
requested capacity in bytes — 16 bytes per `MediaSegment` (two `u64`
fields) — exceeds `isize::MAX = 2^63 - 1`. When this holds, `split` panics
before entering its loop and returns nothing. -/
def splitCapacityOverflow (policy : SplitPolicy) (media_duration : Nat) :
    Prop :=
  2 ^ 63 - 1 < (policy.get_parameters media_duration).2 * 16

/-- Modelled from the spec: the worker's parameter record
`MediaSplitterParameters`. Its declaring module is not under src/; the fields
listed here are the ones consumed by `generate_segments` (src/message.rs) and
follow §4.2 of the spec (optional `duration`, `max_duration`, `overlap`
Duration values and a position anchor defaulting to `Start`). -/
structure MediaSplitterParameters where
  duration : Option Duration := none
  max_duration : Option Duration := none
  overlap : Option Duration := none
  duration_position : DurationPosition := DurationPosition.Start
  number_of_segments : Nat := 1

/-- The window computation of `generate_segments`, src/message.rs lines 43-56:
`total_duration = min(duration.to_millis(D), D)` when `duration` is present
(else `D`), then `min(max_duration.to_millis(D), total_duration)` when
`max_duration` is present. -/
def computeTotalDuration (parameters : MediaSplitterParameters)
    (media_duration : Nat) : Nat :=
  let total_duration :=
    match parameters.duration with
    | some d => min (d.to_millis media_duration) media_duration
    | none => media_duration
  match parameters.max_duration with
  | some max_duration =>
    min (max_duration.to_millis media_duration) total_duration
  | none => total_duration

/-- The start-offset computation of `generate_segments`, src/message.rs lines
65-68: `0` for the `Start` anchor, `media_duration - total_duration` for the
`End` anchor. -/
def computeStartOffset (parameters : MediaSplitterParameters)
    (media_duration : Nat) : Nat :=
  match parameters.duration_position with
  | DurationPosition.Start => 0
  | DurationPosition.End =>
    media_duration - computeTotalDuration parameters media_duration

/-- Verification predicate: every adjacent pair of segments in the list
satisfies `next.start = previous.end + 1 - overlap` (truncated `Nat`
subtraction, i.e. clamped at 0). -/
def adjOk (overlap : Nat) : List MediaSegment → Prop
  | a :: b :: l => b.start = a.«end» + 1 - overlap ∧ adjOk overlap (b :: l)
  | _ => True

/-! ### Helper lemmas -/

/-- Casting a `Nat` below 2^64 through the `i64 → u64` cast is the identity. -/
theorem i64ToU64_ofNat (n : Nat) (h : n < 2 ^ 64) : i64ToU64 (n : Int) = n := by
  unfold i64ToU64 U64MOD
  omega

/-- The `i64 → u64` cast sends a negative `i64` value to a number of at least
2^63. -/
theorem i64ToU64_neg (v : Int) (h1 : -(2 ^ 63) ≤ v) (h2 : v < 0) :
    2 ^ 63 ≤ i64ToU64 v := by
  unfold i64ToU64 U64MOD
  omega

/-- The `u64 → f64` conversion is the identity below 2^53. -/
theorem f64round_eq_of_lt (n : Nat) (h : n < 2 ^ 53) : f64round n = n := by
  unfold f64round
  rw [if_pos h]

/-- The `u64 → f64` conversion of a positive integer is positive. -/
theorem f64round_pos (n : Nat) (h : 1 ≤ n) : 1 ≤ f64round n := by
  unfold f64round
  have he : 2 ^ (Nat.log2 n - 52) ≤ n :=
    le_trans (Nat.pow_le_pow_right (by norm_num) (Nat.sub_le _ _))
      (Nat.log2_self_le (by omega))
  have hq : 1 ≤ n / 2 ^ (Nat.log2 n - 52) :=
    (Nat.one_le_div_iff (Nat.two_pow_pos _)).2 he
  have hp : (0 : Nat) < 2 ^ (Nat.log2 n - 52) := Nat.two_pow_pos _
  split_ifs
  · omega
  · exact Nat.mul_pos (by omega) hp
  · exact Nat.mul_pos hq hp

/-- Below 2^53 the two conversions are exact and `ceilDivF` is exact ceiling
division. -/
theorem ceilDivF_eq_exact (a b : Nat) (ha : a < 2 ^ 53) (hb1 : 1 ≤ b)
    (hb2 : b < 2 ^ 53) : ceilDivF a b = (a + b - 1) / b := by
  unfold ceilDivF
  rw [if_neg (by omega), f64round_eq_of_lt a ha, f64round_eq_of_lt b hb2]

/-- In the exact regime, `ceilDivF` really is a ceiling: `b` copies of
`ceilDivF a b` cover `a`. -/
theorem le_mul_ceilDivF (a b : Nat) (hb : 1 ≤ b) (ha53 : a < 2 ^ 53)
    (hb53 : b < 2 ^ 53) : a ≤ b * ceilDivF a b := by
  have h := (ceilDiv_le_iff_le_mul (show 0 < b by omega)).1 (le_refl (a ⌈/⌉ b))
  have he : a ⌈/⌉ b = (a + b - 1) / b := Nat.ceilDiv_eq_add_pred_div a b
  rw [ceilDivF_eq_exact a b ha53 hb hb53, ← he]
  exact h

/-- In the exact regime, `ceilDivF` of positive arguments is positive. -/
theorem ceilDivF_pos (a b : Nat) (ha : 1 ≤ a) (hb : 1 ≤ b)
    (ha53 : a < 2 ^ 53) (hb53 : b < 2 ^ 53) : 1 ≤ ceilDivF a b := by
  rw [ceilDivF_eq_exact a b ha53 hb hb53]
  have h : b ≤ a + b - 1 := by omega
  calc 1 = b / b := (Nat.div_self (by omega)).symm
    _ ≤ (a + b - 1) / b := Nat.div_le_div_right h

/-- The split loop emits exactly one segment per iteration. -/
theorem splitLoop_length (D sd ov : Nat) :
    ∀ (k ns ne : Nat), (splitLoop D sd ov k ns ne).length = k := by
  intro k
  induction k with
  | zero => intro ns ne; rfl
  | succ k ih => intro ns ne; simp [splitLoop, ih]

/-- Unfolding equation for one iteration of the split loop. -/
theorem splitLoop_cons (D sd ov k ns ne : Nat) :
    splitLoop D sd ov (k + 1) ns ne =
      (⟨ns, stepEnd D sd ne⟩ : MediaSegment) ::
        splitLoop D sd ov k (stepStart ov (stepEnd D sd ne + 1))
          (stepEnd D sd ne + 1) := rfl

/-- The first segment the loop emits starts at the incoming start cursor. -/
theorem splitLoop_head_start (D sd ov k ns ne : Nat) :
    ∃ s, (splitLoop D sd ov (k + 1) ns ne).head? = some s ∧ s.start = ns := by
  rw [splitLoop_cons]
  exact ⟨_, rfl, rfl⟩

/-- Adjacent segments emitted by the loop satisfy the start-cursor update
rule. -/
theorem splitLoop_adjOk (D sd ov : Nat) :
    ∀ (k ns ne : Nat), adjOk ov (splitLoop D sd ov k ns ne) := by
  intro k
  induction k with
  | zero => intro ns ne; trivial
  | succ k ih =>
    intro ns ne
    cases k with
    | zero => rw [splitLoop_cons]; trivial
    | succ k2 =>
      rw [splitLoop_cons, splitLoop_cons]
      refine ⟨?_, ?_⟩
      · show stepStart ov (stepEnd D sd ne + 1) = stepEnd D sd ne + 1 - ov
        unfold stepStart
        split_ifs <;> omega
      · rw [← splitLoop_cons]
        exact ih _ _

/-- Bridge from `adjOk` to the indexed formulation. -/
theorem adjOk_get (ov : Nat) :
    ∀ (l : List MediaSegment), adjOk ov l →
      ∀ (i : Nat) (h : i + 1 < l.length),
        (l.get ⟨i + 1, h⟩).start =
          (l.get ⟨i, Nat.lt_of_succ_lt h⟩).«end» + 1 - ov := by
  intro l
  induction l with
  | nil => intro _ i h; simp at h
  | cons a t ih =>
    intro hadj i h
    cases t with
    | nil => simp at h
    | cons b t2 =>
      obtain ⟨hab, htail⟩ := hadj
      cases i with
      | zero => simpa using hab
      | succ i =>
        have h2 : i + 1 < (b :: t2).length := by
          simpa using Nat.lt_of_succ_lt_succ h
        simpa using ih htail i h2

/-- Once enough loop iterations remain to cover the rest of the window
(`D ≤ ne + (k + 1) * sd`), the last emitted segment ends at `D - 1`. -/
theorem splitLoop_getLast_end (D sd ov : Nat) (hsd : 1 ≤ sd) :
    ∀ (k ns ne : Nat), D ≤ ne + (k + 1) * sd →
      ∃ s, (splitLoop D sd ov (k + 1) ns ne).getLast? = some s ∧
        s.«end» = D - 1 := by
  intro k
  induction k with
  | zero =>
    intro ns ne hle
    rw [splitLoop_cons]
    refine ⟨_, rfl, ?_⟩
    show stepEnd D sd ne = D - 1
    have h1 : (0 + 1) * sd = sd := by ring
    simp only [stepEnd]
    split_ifs <;> omega
  | succ k ih =>
    intro ns ne hle
    rw [splitLoop_cons, splitLoop_cons, List.getLast?_cons_cons,
      ← splitLoop_cons]
    apply ih
    have h1 : (k + 1 + 1) * sd = k * sd + sd + sd := by ring
    have h2 : (k + 1) * sd = k * sd + sd := by ring
    simp only [stepEnd]
    split_ifs <;> omega

/-- With an overlap larger than the whole window, every start cursor the loop
produces from a zero start cursor is again zero. -/
theorem splitLoop_all_start_zero (D sd ov : Nat) (hov : D < ov) :
    ∀ (k ne : Nat), ∀ s ∈ splitLoop D sd ov k 0 ne, s.start = 0 := by
  intro k
  induction k with
  | zero => intro ne s hs; simp [splitLoop] at hs
  | succ k ih =>
    intro ne s hs
    rw [splitLoop_cons] at hs
    rcases List.mem_cons.1 hs with rfl | hs2
    · rfl
    · have hz : stepStart ov (stepEnd D sd ne + 1) = 0 := by
        unfold stepStart stepEnd
        split_ifs <;> omega
      rw [hz] at hs2
      exact ih _ s hs2

/-- The pair `(segment_duration, number_of_segments)` computed by
`get_parameters` for the `NumberOfSegments` policy, on a non-degenerate
input: both components are positive, the count is `min n D`, and
`number_of_segments * segment_duration` covers the window. -/
theorem get_parameters_number_spec (n D : Nat) (hn : 1 ≤ n) (hD : 1 ≤ D)
    (hD53 : D < 2 ^ 53) :
    ∃ sd k,
      (SplitPolicy.NumberOfSegments n).get_parameters D = (sd, k) ∧
        1 ≤ sd ∧ 1 ≤ k ∧ k = min n D ∧ D ≤ k * sd := by
  simp only [SplitPolicy.get_parameters]
  rw [if_neg (show ¬n = 0 by omega)]
  refine ⟨_, _, rfl, ?_, ?_, ?_, ?_⟩
  · exact ceilDivF_pos _ _ hD (by split_ifs <;> omega) hD53
      (by split_ifs <;> omega)
  · split_ifs <;> omega
  · split_ifs <;> omega
  · exact le_mul_ceilDivF D _ (by split_ifs <;> omega) hD53
      (by split_ifs <;> omega)

/-! ### Claim theorems -/

/-- Claim C1 counterexample: at `total_duration = 100`, `segment_count = 3`,
no overlap, the code emits `[(0,33),(34,67),(68,99)]`; the last segment's end
is 99, not 100, and segment 0's end (33) differs from segment 1's start (34),
refuting the claimed shared-boundary exact cover of `[0, 100]`. -/
theorem split_cover_claim_counterexample :
    SplitPolicy.split (SplitPolicy.NumberOfSegments 3) 100 none =
      Except.ok [⟨0, 33⟩, ⟨34, 67⟩, ⟨68, 99⟩] ∧
    ¬(([(⟨0, 33⟩ : MediaSegment), ⟨34, 67⟩, ⟨68, 99⟩].get
        ⟨2, by norm_num⟩).«end» = 100) ∧
    ¬(([(⟨0, 33⟩ : MediaSegment), ⟨34, 67⟩, ⟨68, 99⟩].get
        ⟨0, by norm_num⟩).«end» =
      ([(⟨0, 33⟩ : MediaSegment), ⟨34, 67⟩, ⟨68, 99⟩].get
        ⟨1, by norm_num⟩).start) :=
  ⟨rfl, by decide, by decide⟩

/-- Claim C1 (corrected): for every `total_duration` with
`0 < total_duration < 2^53` — the range on which the f64 parameter
computation of `get_parameters` is exact ceiling division (see `ceilDivF`;
at `total_duration = 2^53 + 1` the conversion rounds and the last emitted
end is `total_duration - 2`) — and every `segment_count ≥ 1`, splitting
with no overlap covers `[0, total_duration - 1]` with inclusive segment
ends: the first segment starts at 0, the last segment ends at
`total_duration - 1`, and each segment's end plus one equals the next
segment's start (consecutive segments do not share a boundary value). -/
theorem split_exact_cover (segment_count total_duration : Nat)
    (hn : 1 ≤ segment_count) (hD : 1 ≤ total_duration)
    (hD53 : total_duration < 2 ^ 53) :
    ∃ segs,
      SplitPolicy.split (SplitPolicy.NumberOfSegments segment_count)
          total_duration none =
        Except.ok segs ∧
      (∃ first, segs.head? = some first ∧ first.start = 0) ∧
      (∃ last, segs.getLast? = some last ∧
        last.«end» = total_duration - 1) ∧
      ∀ (i : Nat) (h : i + 1 < segs.length),
        (segs.get ⟨i, Nat.lt_of_succ_lt h⟩).«end» + 1 =
          (segs.get ⟨i + 1, h⟩).start := by
  obtain ⟨sd, k, hgp, hsd, hk, hkmin, hcov⟩ :=
    get_parameters_number_spec segment_count total_duration hn hD hD53
  obtain ⟨k2, rfl⟩ : ∃ k2, k = k2 + 1 := ⟨k - 1, by omega⟩
  refine ⟨splitLoop total_duration sd 0 (k2 + 1) 0 0, ?_, ?_, ?_, ?_⟩
  · unfold SplitPolicy.split
    rw [hgp]
    rfl
  · exact splitLoop_head_start total_duration sd 0 k2 0 0
  · exact splitLoop_getLast_end total_duration sd 0 hsd k2 0 0 (by omega)
  · intro i h
    have := adjOk_get 0 _
      (splitLoop_adjOk total_duration sd 0 (k2 + 1) 0 0) i h
    omega

/-- Claim C1 witness: the amended exact-cover property at
`segment_count = 3`, `total_duration = 100`. -/
theorem split_exact_cover_witness :
    ∃ segs,
      SplitPolicy.split (SplitPolicy.NumberOfSegments 3) 100 none =
        Except.ok segs ∧
      (∃ first, segs.head? = some first ∧ first.start = 0) ∧
      (∃ last, segs.getLast? = some last ∧ last.«end» = 100 - 1) ∧
      ∀ (i : Nat) (h : i + 1 < segs.length),
        (segs.get ⟨i, Nat.lt_of_succ_lt h⟩).«end» + 1 =
          (segs.get ⟨i + 1, h⟩).start :=
  split_exact_cover 3 100 (by norm_num) (by norm_num) (by norm_num)

/-- Claim C2 counterexample: splitting 100 ms into 3 segments does not return
the claimed shared-boundary list `[(0,33),(33,66),(66,100)]`. -/
theorem split_100_3_claim_counterexample :
    SplitPolicy.split (SplitPolicy.NumberOfSegments 3) 100 none ≠
      Except.ok [⟨0, 33⟩, ⟨33, 66⟩, ⟨66, 100⟩] := by
  intro h
  rw [show SplitPolicy.split (SplitPolicy.NumberOfSegments 3) 100 none =
      Except.ok [⟨0, 33⟩, ⟨34, 67⟩, ⟨68, 99⟩] from rfl] at h
  simp at h

/-- Claim C2 (corrected): splitting `total_duration = 100` into
`segment_count = 3` segments with no overlap returns exactly
`[{start: 0, end: 33}, {start: 34, end: 67}, {start: 68, end: 99}]`
(inclusive ends, no shared boundary values). -/
theorem split_100_3_eq :
    SplitPolicy.split (SplitPolicy.NumberOfSegments 3) 100 none =
      Except.ok [⟨0, 33⟩, ⟨34, 67⟩, ⟨68, 99⟩] := rfl

/-- Claim C3 (confirmed): for every `segment_count ≥ 1` and every
`total_duration`, the `NumberOfSegments` policy (the one without a
minimum-duration constraint) returns exactly
`min segment_count total_duration` segments. -/
theorem split_segment_count (segment_count total_duration : Nat)
    (hn : 1 ≤ segment_count) :
    ∃ segs,
      SplitPolicy.split (SplitPolicy.NumberOfSegments segment_count)
          total_duration none =
        Except.ok segs ∧
      segs.length = min segment_count total_duration := by
  refine ⟨_, rfl, ?_⟩
  rw [splitLoop_length]
  simp only [SplitPolicy.get_parameters]
  rw [if_neg (show ¬segment_count = 0 by omega)]
  split_ifs <;> omega

/-- Claim C3 witness: the count invariant at `segment_count = 3`,
`total_duration = 100`. -/
theorem split_segment_count_witness :
    ∃ segs,
      SplitPolicy.split (SplitPolicy.NumberOfSegments 3) 100 none =
        Except.ok segs ∧ segs.length = min 3 100 :=
  split_segment_count 3 100 (by norm_num)

/-- Claim C4 (confirmed): for every media duration `D` and every parameter
set, the computed window is at most `D` (with `max_duration` only ever
shrinking it), and the start offset satisfies
`start_offset + window ≤ D` for both the `Start` and the `End` anchor, so the
`End`-anchor subtraction `D - window` never underflows. -/
theorem generate_segments_window_bounded (p : MediaSplitterParameters)
    (D : Nat) :
    computeTotalDuration p D ≤ D ∧
      computeStartOffset p D + computeTotalDuration p D ≤ D := by
  have hw : computeTotalDuration p D ≤ D := by
    unfold computeTotalDuration
    rcases p with ⟨pd, pmax, pov, ppos, pn⟩
    cases pd <;> cases pmax <;> simp
  refine ⟨hw, ?_⟩
  unfold computeStartOffset
  cases p.duration_position
  · simpa using hw
  · dsimp only
    omega

/-- Claim C5 counterexample: `to_millis` with unit `Second` does not return
`value * 1000` for every value: at `value = 2^61` the `u64` product wraps to
0. -/
theorem to_millis_second_overflow_counterexample :
    (Duration.mk (2 ^ 61) DurationUnit.Second).to_millis 0 ≠ 2 ^ 61 * 1000 := by
  decide

/-- Claim C5 (corrected): `to_millis` is a total function of
`(value, unit, reference_duration)`, and whenever the `u64` products do not
overflow it returns `value` for `Millisecond`, `value * 1000` for `Second`,
and `⌊reference * value / 100⌋` for `Percent` (the reference is ignored for
`Millisecond` and `Second`). -/
theorem to_millis_formula (value D : Nat) (hs : value * 1000 < 2 ^ 64)
    (hp : D * value < 2 ^ 64) :
    (Duration.mk value DurationUnit.Millisecond).to_millis D = value ∧
      (Duration.mk value DurationUnit.Second).to_millis D = value * 1000 ∧
      (Duration.mk value DurationUnit.Percent).to_millis D = D * value / 100 := by
  unfold Duration.to_millis U64MOD
  refine ⟨rfl, ?_, ?_⟩
  · simpa using Nat.mod_eq_of_lt hs
  · simp only []
    rw [Nat.mod_eq_of_lt hp]

/-- Claim C5 witness: the formulas at `value = 5`, `reference = 666`
(the values of the repository's `duration_checks` test). -/
theorem to_millis_formula_witness :
    (Duration.mk 5 DurationUnit.Millisecond).to_millis 666 = 5 ∧
      (Duration.mk 5 DurationUnit.Second).to_millis 666 = 5 * 1000 ∧
      (Duration.mk 5 DurationUnit.Percent).to_millis 666 = 666 * 5 / 100 :=
  to_millis_formula 5 666 (by norm_num) (by norm_num)

/-- Claim C6 counterexample: the percent round-trip fails at `D = 2^63`,
where the `u64` product `D * 100` wraps to 0. -/
theorem percent_roundtrip_counterexample :
    (Duration.mk 100 DurationUnit.Percent).to_millis (2 ^ 63) ≠ 2 ^ 63 := by
  decide

/-- Claim C6 (corrected): a `Duration` of 100 percent resolves back to the
reference duration `D` whenever the `u64` product `D * 100` does not
overflow. -/
theorem percent_roundtrip (D : Nat) (h : D * 100 < 2 ^ 64) :
    (Duration.mk 100 DurationUnit.Percent).to_millis D = D := by
  unfold Duration.to_millis U64MOD
  simp only []
  rw [Nat.mod_eq_of_lt h, Nat.mul_div_cancel]
  omega

/-- Claim C6 witness: the round-trip at `D = 666`. -/
theorem percent_roundtrip_witness :
    (Duration.mk 100 DurationUnit.Percent).to_millis 666 = 666 :=
  percent_roundtrip 666 (by norm_num)

/-- Claim C7 (confirmed): for every policy, media duration, and non-negative
overlap value `v` (within the `i64` range, so below 2^63), each emitted
segment's start cursor is `max(next_end - overlap, 0)` where `next_end` is
the preceding segment's end plus one: the subtraction is guarded and clamps
to 0 instead of underflowing, and no segment (a pair of `u64` offsets) can
start before offset 0. -/
theorem split_next_start_max (policy : SplitPolicy)
    (media_duration overlap_value : Nat) (hov : overlap_value < 2 ^ 63)
    (segs : List MediaSegment)
    (hs : policy.split media_duration (some (overlap_value : Int)) =
      Except.ok segs)
    (i : Nat) (h : i + 1 < segs.length) :
    ((segs.get ⟨i + 1, h⟩).start : Int) =
      max (((segs.get ⟨i, Nat.lt_of_succ_lt h⟩).«end» : Int) + 1 -
        (overlap_value : Int)) 0 := by
  unfold SplitPolicy.split at hs
  rw [Option.getD_some, i64ToU64_ofNat overlap_value (by omega)] at hs
  injection hs with hs2
  subst hs2
  have := adjOk_get overlap_value _
    (splitLoop_adjOk media_duration _ overlap_value _ 0 0) i h
  omega

/-- Claim C7 witness: the clamped start-cursor rule at policy
`NumberOfSegments 3`, `media_duration = 9`, `overlap = 2`, adjacent pair
`i = 0` of the emitted segments `[(0,2),(1,5),(4,8)]`. -/
theorem split_next_start_max_witness :
    (([(⟨0, 2⟩ : MediaSegment), ⟨1, 5⟩, ⟨4, 8⟩].get
        ⟨1, by norm_num⟩).start : Int) =
      max ((([(⟨0, 2⟩ : MediaSegment), ⟨1, 5⟩, ⟨4, 8⟩].get
        ⟨0, by norm_num⟩).«end» : Int) + 1 - ((2 : Nat) : Int)) 0 :=
  split_next_start_max (SplitPolicy.NumberOfSegments 3) 9 2 (by norm_num)
    [⟨0, 2⟩, ⟨1, 5⟩, ⟨4, 8⟩] rfl 0 (by norm_num)

/-- Claim C8 counterexample: at `total_duration = 2^53 + 1` the `u64 → f64`
conversion rounds the duration down to `2^53` (ties to even), the computed
segment duration is `2^53`, the clamp never fires, and the single segment
emitted for count 0 is `(0, 2^53 - 1)` — its end is `total_duration - 2`,
so the segment does not cover the whole window. -/
theorem split_zero_count_claim_counterexample :
    SplitPolicy.split (SplitPolicy.NumberOfSegments 0) (2 ^ 53 + 1) none =
      Except.ok [⟨0, 2 ^ 53 - 1⟩] ∧
    (2 ^ 53 - 1 : Nat) ≠ 2 ^ 53 + 1 - 1 := by
  constructor
  · have hlog : Nat.log2 (2 ^ 53 + 1) = 53 := by
      rw [Nat.log2_eq_log_two]
      exact Nat.log_eq_of_pow_le_of_lt_pow (by norm_num) (by norm_num)
    have hf : f64round (2 ^ 53 + 1) = 2 ^ 53 := by
      unfold f64round
      rw [hlog]
      decide
    have hceil : ceilDivF (2 ^ 53 + 1) 1 = 2 ^ 53 := by
      unfold ceilDivF
      rw [if_neg (by norm_num), hf, f64round_eq_of_lt 1 (by norm_num)]
      norm_num
    have hgp : (SplitPolicy.NumberOfSegments 0).get_parameters
        (2 ^ 53 + 1) = (2 ^ 53, 1) := by
      simp only [SplitPolicy.get_parameters, if_true]
      rw [if_neg (by norm_num), hceil]
    unfold SplitPolicy.split
    rw [hgp]
    exact congrArg Except.ok (by decide)
  · norm_num

/-- Claim C8 (corrected): for every `total_duration` with
`1 ≤ total_duration < 2^53` — the range on which the f64 parameter
computation is exact — the `NumberOfSegments` policy with count 0 treats
the count as 1 and returns the single segment `(0, total_duration - 1)`
covering the whole window (inclusive-end convention). -/
theorem split_zero_count_single_segment (total_duration : Nat)
    (hD : 1 ≤ total_duration) (hD53 : total_duration < 2 ^ 53) :
    SplitPolicy.split (SplitPolicy.NumberOfSegments 0) total_duration none =
      Except.ok [⟨0, total_duration - 1⟩] := by
  have hn1 : (if 1 ≥ total_duration then total_duration else 1) = 1 := by
    split_ifs <;> omega
  have hgp : (SplitPolicy.NumberOfSegments 0).get_parameters total_duration =
      (ceilDivF total_duration (if 1 ≥ total_duration then total_duration
          else 1),
        if 1 ≥ total_duration then total_duration else 1) := rfl
  have hsd : ceilDivF total_duration 1 = total_duration := by
    rw [ceilDivF_eq_exact total_duration 1 hD53 (by norm_num) (by norm_num)]
    simp
  have hse : stepEnd total_duration total_duration 0 = total_duration - 1 := by
    unfold stepEnd
    split_ifs <;> omega
  unfold SplitPolicy.split
  rw [hgp, hn1, hsd]
  show Except.ok (splitLoop total_duration total_duration
      (i64ToU64 (none.getD 0)) 1 0 0) =
    Except.ok [(⟨0, total_duration - 1⟩ : MediaSegment)]
  rw [show splitLoop total_duration total_duration
      (i64ToU64 (none.getD 0)) 1 0 0 =
    [(⟨0, stepEnd total_duration total_duration 0⟩ : MediaSegment)] from rfl,
    hse]

/-- Claim C8 witness: `segment_count = 0` on a 100 ms window yields the
single segment `(0, 99)`. -/
theorem split_zero_count_single_segment_witness :
    SplitPolicy.split (SplitPolicy.NumberOfSegments 0) 100 none =
      Except.ok [⟨0, 100 - 1⟩] :=
  split_zero_count_single_segment 100 (by norm_num) (by norm_num)

/-- Claim C9 counterexample: `split` is not total.
At `SegmentDurationSeconds(2^61)` with `media_duration = 100` the wrapping
`u64` multiply `2^61 * 1000` is 0 (debug builds already panic at the
multiply), the f64 division `100.0 / 0.0 = inf` saturates the segment count
to `u64::MAX = 2^64 - 1`, and `Vec::with_capacity(u64::MAX)` requests
`16 * (2^64 - 1)` bytes, exceeding `isize::MAX` — the program panics with
"capacity overflow" instead of returning `Ok`. -/
theorem split_total_claim_counterexample :
    splitCapacityOverflow (SplitPolicy.SegmentDurationSeconds (2 ^ 61))
      100 ∧
    (SplitPolicy.SegmentDurationSeconds (2 ^ 61)).get_parameters 100 =
      (0, U64MOD - 1) := by
  constructor
  · show 2 ^ 63 - 1 <
      ((SplitPolicy.SegmentDurationSeconds (2 ^ 61)).get_parameters 100).2 *
        16
    decide
  · decide

/-- Claim C9 (corrected): the `Err` branch of split's `Result` type is never
produced — the body only ever ends in `Ok(segments)` — and a zero media
duration always yields zero loop iterations (an empty segment list), so the
`media_duration - 1` clamp is never reached there. The operation is however
not total: on inputs satisfying `splitCapacityOverflow` (such as
`SegmentDurationSeconds(2^61)` with a positive duration, see the
counterexample) the program panics before its loop, so no `Ok` is returned
either; this theorem speaks for the inputs on which `split` returns. -/
theorem split_never_constructs_err (policy : SplitPolicy)
    (media_duration : Nat) (segment_overlap : Option Int) :
    (∃ segs, policy.split media_duration segment_overlap =
      Except.ok segs) ∧
      policy.split 0 segment_overlap = Except.ok [] := by
  refine ⟨⟨_, rfl⟩, ?_⟩
  have h0 : ∀ sd, ceilDivF 0 sd = 0 := by
    intro sd
    unfold ceilDivF
    rw [f64round_eq_of_lt 0 (by norm_num)]
    split_ifs with hsd h00
    · rfl
    · omega
    · exact Nat.div_eq_of_lt
        (by have := f64round_pos sd (by omega); omega)
  unfold SplitPolicy.split
  cases policy <;> simp [SplitPolicy.get_parameters, h0, splitLoop]

/-- Claim C10 (confirmed): for every call to `split` with a negative overlap
value `v` (an `i64`, so `-2^63 ≤ v < 0`, which the `as u64` cast turns into
`v mod 2^64 ≥ 2^63`) and every media duration below 2^63, the cursor
comparison `next_end < overlap` holds at every step, so every emitted
segment starts at 0. -/
theorem split_negative_overlap_starts_zero (policy : SplitPolicy)
    (media_duration : Nat) (hD : media_duration < 2 ^ 63)
    (v : Int) (hneg : v < 0) (hrange : -(2 ^ 63) ≤ v)
    (segs : List MediaSegment)
    (hs : policy.split media_duration (some v) = Except.ok segs) :
    ∀ s ∈ segs, s.start = 0 := by
  have hbig := i64ToU64_neg v hrange hneg
  unfold SplitPolicy.split at hs
  rw [Option.getD_some] at hs
  injection hs with hs2
  subst hs2
  exact splitLoop_all_start_zero media_duration _ _ (by omega) _ 0

/-- Claim C10 witness: splitting 9 ms into 3 segments with overlap `-1`
yields `[(0,2),(0,5),(0,8)]`, and its second segment — emitted after a cursor
update with the huge cast overlap — starts at 0. -/
theorem split_negative_overlap_starts_zero_witness :
    SplitPolicy.split (SplitPolicy.NumberOfSegments 3) 9 (some (-1)) =
      Except.ok [⟨0, 2⟩, ⟨0, 5⟩, ⟨0, 8⟩] ∧
    (⟨0, 5⟩ : MediaSegment).start = 0 := by
  have h : SplitPolicy.split (SplitPolicy.NumberOfSegments 3) 9
      (some (-1)) =
      Except.ok [⟨0, 2⟩, ⟨0, 5⟩, ⟨0, 8⟩] := by
    unfold SplitPolicy.split
    congr 1
  exact ⟨h, split_negative_overlap_starts_zero
    (SplitPolicy.NumberOfSegments 3) 9 (by norm_num) (-1) (by norm_num)
    (by norm_num) [⟨0, 2⟩, ⟨0, 5⟩, ⟨0, 8⟩] h (⟨0, 5⟩ : MediaSegment)
    (by decide)⟩

end MediaSplitter
